import Mathlib

set_option maxRecDepth 4000

/-!
Shallow embedding of the osqt extraction engine (schema.go, table.go,
namespace.go, column model, parser, virtual/database.go).

Go-specific conventions used throughout the embedding:
  * a Go function that can return an error, panic (runtime index/nil errors
    or an explicit panic call), or exit via the zap Fatalw logger is modelled
    as returning `Res α`;
  * Go maps are modelled as association lists mutated through `mapInsert`
    (last write wins on an existing key); Go map iteration order is
    unspecified, so every theorem about map contents is stated at the level
    of key sets / permutations, never list order;
  * pointer back-references (Schema.Table, Table.Namespace, Namespace.parser)
    are rendered as the path of the referenced object inside the parser
    namespace map (they are used by the Go code only for logging and for the
    rehydration claims); loggers are dropped.
-/

/-- Outcome of running a piece of the Go code: a normal value, a returned
error, a runtime panic, or a process exit through the Fatalw logger. -/
inductive Res (α : Type) where
  | ok (val : α)
  | err (msg : String)
  | panicked (msg : String)
  | fatal (msg : String)
deriving DecidableEq, Repr

/-- True exactly for the error-return outcome. -/
def Res.isErr {α : Type} : Res α → Bool
  | .err _ => true
  | _ => false

/-- True exactly for the normal outcome. -/
def Res.isOk {α : Type} : Res α → Bool
  | .ok _ => true
  | _ => false

/-- Message of the Go runtime panic raised by an out-of-bounds slice index. -/
def oobMsg : String := "runtime error: index out of range"

/-- Message of the Go runtime panic raised by dereferencing a nil pointer. -/
def nilDerefMsg : String := "runtime error: invalid memory address or nil pointer dereference"

/-- The python named constants (gpython NameConstant values). -/
inductive PyConst where
  | pyTrue
  | pyFalse
  | pyNone
deriving DecidableEq, Repr

/-- Rendering of a NameConstant value through fmt.Sprintf with the v verb. -/
def PyConst.goString : PyConst → String
  | .pyTrue => "True"
  | .pyFalse => "False"
  | .pyNone => "None"

/-- The gpython boolean operators appearing in a BoolOp node. -/
inductive PyBoolOperator where
  | opAnd
  | opOr
deriving DecidableEq, Repr

/-- The node set of the external gpython AST collaborator that the extractor
consumes: Call(func, args, keywords), Name, Str, NameConstant, List, Lambda
(modelled by its body) and BoolOp. Keywords are (argument name, value) pairs. -/
inductive PyExpr where
  | call (func : PyExpr) (args : List PyExpr) (keywords : List (String × PyExpr))
  | name (id : String)
  | str (s : String)
  | nameConstant (value : PyConst)
  | list (elts : List PyExpr)
  | lambda (body : PyExpr)
  | boolOp (op : PyBoolOperator) (values : List PyExpr)

/-- A scalar stored into one of the Go map[string]interface sinks
(column options, foreign keys, attributes): either the python object of a
NameConstant, or a Go string (both Str values and Name identifiers are
stored as strings and are indistinguishable afterwards). -/
inductive Scalar where
  | const (v : PyConst)
  | string (s : String)
deriving DecidableEq, Repr

/-- The keyword-value coercion switch shared by column options, foreign keys
and attributes: NameConstant stores its python value, Str and Name store a
string, every other node shape stores nothing. -/
def scalarOf? : PyExpr → Option Scalar
  | .nameConstant v => some (.const v)
  | .str s => some (.string s)
  | .name id => some (.string id)
  | _ => none

/-- Lookup in an association-list rendering of a Go map. -/
def mapLookup {α : Type} : List (String × α) → String → Option α
  | [], _ => none
  | (k, v) :: rest, key => if k = key then some v else mapLookup rest key

/-- Insert into an association-list rendering of a Go map: an existing key is
overwritten in place, a new key is appended. -/
def mapInsert {α : Type} : List (String × α) → String → α → List (String × α)
  | [], key, v => [(key, v)]
  | (k, w) :: rest, key, v =>
      if k = key then (k, v) :: rest else (k, w) :: mapInsert rest key v

/-- Append a string to a list unless it is already present; folding this over
a list renders the Go pattern of collecting strings into a map and reading
the keys back (the embedding fixes first-occurrence order where Go leaves
map iteration order unspecified). -/
def insertUniq (acc : List String) (x : String) : List String :=
  if x ∈ acc then acc else acc ++ [x]

/-- The platform-set merge performed inline (via a temporary map) in
ParseLambda and in each platform arm of Schema.ExtractSchema: the union of
the old platform list and the new category list, with duplicates collapsed. -/
def unionPlatforms (old extra : List String) : List String :=
  (old ++ extra).foldl insertUniq []

/-- CanonicalPlatforms lists the possible platform subfolders within a table. -/
def CanonicalPlatforms : List (String × String) :=
  [("specs", "All Platforms"),
   ("darwin", "Darwin (Apple OS X)"),
   ("linux", "Ubuntu, CentOS"),
   ("freebsd", "FreeBSD"),
   ("posix", "POSIX-compatible Plaforms"),
   ("windows", "Microsoft Windows"),
   ("utility", "Utility"),
   ("yara", "YARA"),
   ("smart", "SMART"),
   ("lldpd", "LLDPD"),
   ("sleuthkit", "The Sleuth Kit"),
   ("macwin", "MacOS and Windows"),
   ("linwin", "Linux and Windows")]

/-- TableCategories are used to apply applicable platforms to extended schema
definitions. -/
def TableCategories : List (String × List String) :=
  [("WINDOWS", ["windows", "win32", "cygwin"]),
   ("LINUX", ["linux"]),
   ("POSIX", ["linux", "darwin", "freebsd"]),
   ("DARWIN", ["darwin"]),
   ("FREEBSD", ["freebsd"])]

/-- Column represents a column definition within an OSQuery table declaration.
The Go field Type is rendered as typ. -/
structure Column where
  Index : Nat
  Name : String
  typ : String
  Description : String
  Aliases : List String
  Options : List (String × Scalar)
deriving DecidableEq, Repr

/-- NewEmptyColumn creates a new empty Column object (the Go zero value of
the int Index field is 0). -/
def NewEmptyColumn : Column :=
  { Index := 0, Name := "", typ := "", Description := "", Aliases := [], Options := [] }

/-- The primitive types of the external go-mysql-server sql engine that
column type tokens are mapped onto. -/
inductive SqlType where
  | text
  | date
  | timestamp
  | int32
  | int64
  | uint64
  | float64
  | blob
deriving DecidableEq, Repr

/-- The sql.Column descriptor handed to the external relational engine. -/
structure SqlColumn where
  Name : String
  Source : String
  Nullable : Bool
  typ : SqlType
deriving DecidableEq, Repr

/-- Column.ToSQLSchema creates a virtual sql.Column definition; the switch on
the declared type token recognizes exactly eight tokens and panics on any
other token. -/
def Column.ToSQLSchema (c : Column) (tablename : String) : Res SqlColumn :=
  if c.typ = "TEXT" then
    .ok { Name := c.Name, Source := tablename, Nullable := true, typ := .text }
  else if c.typ = "DATE" then
    .ok { Name := c.Name, Source := tablename, Nullable := true, typ := .date }
  else if c.typ = "DATETIME" then
    .ok { Name := c.Name, Source := tablename, Nullable := true, typ := .timestamp }
  else if c.typ = "INTEGER" then
    .ok { Name := c.Name, Source := tablename, Nullable := true, typ := .int32 }
  else if c.typ = "BIGINT" then
    .ok { Name := c.Name, Source := tablename, Nullable := true, typ := .int64 }
  else if c.typ = "UNSIGNED_BIGINT" then
    .ok { Name := c.Name, Source := tablename, Nullable := true, typ := .uint64 }
  else if c.typ = "DOUBLE" then
    .ok { Name := c.Name, Source := tablename, Nullable := true, typ := .float64 }
  else if c.typ = "BLOB" then
    .ok { Name := c.Name, Source := tablename, Nullable := true, typ := .blob }
  else
    .panicked ("unsupported type " ++ c.typ ++ " for column " ++ c.Name)

/-- Schema outlines the structure of the columns within an OSQuery table.
The Go back-pointer field Table (excluded from the wire encodings) is
rendered as TableRef, the (namespace key, table name) path of the owning
table inside the parser namespace map; the Go nil pointer is none. -/
structure Schema where
  TableRef : Option (String × String)
  Platforms : List String
  Extended : Bool
  Columns : List Column
  ForeignKeys : List (List (String × Scalar))
deriving DecidableEq, Repr

/-- NewEmptySchema returns an initialized, but empty Schema object. In Go it
receives the owning table pointer; at extraction time the table is not yet
inserted anywhere, so the path rendering of that pointer is none. -/
def NewEmptySchema : Schema :=
  { TableRef := none, Platforms := [], Extended := false, Columns := [], ForeignKeys := [] }

/-- The platform-set union written inline in each merge site: the new
category platform list is unioned into the existing platform set. -/
def Schema.mergePlatformList (s : Schema) (platformList : List String) : Schema :=
  { s with Platforms := unionPlatforms s.Platforms platformList }

/-- The loop of ParseLambda over the OR operand list: each operand must be a
Call whose func is a Name whose identifier is a TableCategories key; its
platform list is unioned into the platform set. The operand argument list is
never inspected. -/
def Schema.parseLambdaValues (s : Schema) : List PyExpr → Res Schema
  | [] => .ok s
  | v :: rest =>
    match v with
    | .call f _ _ =>
      match f with
      | .name id =>
        match mapLookup TableCategories id with
        | some platformList =>
            Schema.parseLambdaValues (s.mergePlatformList platformList) rest
        | none => .err ("No table category for provided function identifier: " ++ id)
      | _ => .err "lambda OR value function mismatch: expected *ast.Name"
    | _ => .err "lambda OR value mismatch: expected *ast.Call"

/-- ParseLambda attempts to extract the logical OR values out of the custom
expression to identify applicable platforms. The Go function receives the
Lambda node and destructures its Body field; the embedding is applied to the
body directly. -/
def Schema.ParseLambda (s : Schema) (body : PyExpr) : Res Schema :=
  match body with
  | .boolOp op values =>
    if op = .opOr then Schema.parseLambdaValues s values
    else .err "lambda body operation mismatch: expected OR"
  | _ => .err "lambda body type mismatch: expected *ast.BoolOp"

/-- The keyword collection switch folded over a Keywords list into one of the
map[string]interface sinks. -/
def mergeKeywords (m : List (String × Scalar)) (kws : List (String × PyExpr)) :
    List (String × Scalar) :=
  kws.foldl (fun m kw =>
    match scalarOf? kw.2 with
    | some v => mapInsert m kw.1 v
    | none => m) m

/-- The column-list loop of Schema.ExtractSchema over the declared element
list. Each element must be a Call with a Name callee; a ForeignKey call
collects its keywords into the foreign-key list; any other call builds a
column whose Index is the position of the element in the declared list
(positions count ForeignKey and skipped entries too). A call with no
positional arguments is skipped with a warning; positional arguments 1 and 2
are indexed without a bounds check and panic when absent. -/
def Schema.extractColumns (s : Schema) (elts : List PyExpr) (colidx : Nat) : Res Schema :=
  match elts with
  | [] => .ok s
  | coldef :: rest =>
    match coldef with
    | .call cfunc cargs ckws =>
      match cfunc with
      | .name fid =>
        if fid = "ForeignKey" then
          Schema.extractColumns
            { s with ForeignKeys := s.ForeignKeys ++ [mergeKeywords [] ckws] } rest (colidx + 1)
        else if cargs.length < 1 then
          Schema.extractColumns s rest (colidx + 1)
        else
          match cargs.get? 1 with
          | none => .panicked oobMsg
          | some a1 =>
            match cargs.get? 2 with
            | none => .panicked oobMsg
            | some a2 =>
              let nm := match cargs.get? 0 with
                | some (.str v) => v
                | _ => ""
              let ty := match a1 with
                | .name v => v
                | _ => ""
              let ds := match a2 with
                | .str v => v
                | _ => ""
              let col : Column :=
                { Index := colidx, Name := nm, typ := ty, Description := ds,
                  Aliases := [], Options := mergeKeywords [] ckws }
              Schema.extractColumns { s with Columns := s.Columns ++ [col] } rest (colidx + 1)
      | _ => .err "Column definition caller function was not a *past.Name"
    | _ => .err "argument was not of type *ast.Call"

/-- The platform-specifier switch of the extended_schema branch of
Schema.ExtractSchema: a NameConstant (rendered through the v verb), a Str or
a Name is looked up in TableCategories and its platform list merged; a
Lambda is delegated to ParseLambda; every other shape is an error. -/
def Schema.extractPlatformArg (s : Schema) (platformArg : PyExpr) : Res Schema :=
  match platformArg with
  | .nameConstant v =>
    match mapLookup TableCategories v.goString with
    | some platformList => .ok (s.mergePlatformList platformList)
    | none => .err ("No table category for provided function identifier: " ++ v.goString)
  | .str v =>
    match mapLookup TableCategories v with
    | some platformList => .ok (s.mergePlatformList platformList)
    | none => .err ("No table category for provided function identifier: " ++ v)
  | .name id =>
    match mapLookup TableCategories id with
    | some platformList => .ok (s.mergePlatformList platformList)
    | none => .err ("No table category for provided function identifier: " ++ id)
  | .lambda body => Schema.ParseLambda s body
  | _ => .err "could not determine type for extended_schema platform argument"

/-- Schema.ExtractSchema: given the Func and Args of a call node representing
schema([...]) or extended_schema(platform, [...]). When the callee name is
extended_schema, the Extended flag is set, Args[0] (indexed without a bounds
check) is the platform specifier, and the column list is Args[1]; otherwise
the column list is Args[0]. The column-list argument must be a List literal.
The node keyword list is never read. -/
def Schema.ExtractSchema (s : Schema) (func : PyExpr) (args : List PyExpr) : Res Schema :=
  match func with
  | .name callerFuncName =>
    if callerFuncName = "extended_schema" then
      match args.get? 0 with
      | none => .panicked oobMsg
      | some parg =>
        match Schema.extractPlatformArg { s with Extended := true } parg with
        | .ok s1 =>
          match args.get? 1 with
          | none => .panicked oobMsg
          | some a =>
            match a with
            | .list elts => Schema.extractColumns s1 elts 0
            | _ => .err "argument 1 was not of type *arg.List (extended=true)"
        | .err e => .err e
        | .panicked m => .panicked m
        | .fatal m => .fatal m
    else
      match args.get? 0 with
      | none => .panicked oobMsg
      | some a =>
        match a with
        | .list elts => Schema.extractColumns s elts 0
        | _ => .err "argument 0 was not of type *arg.List (extended=false)"
  | _ => .err "expected caller function name to be of type (*past.Name)"

/-- Table represents an OSQuery table and all of its properties and schema.
The Go back-pointer field Namespace (excluded from the wire encodings) is
rendered as NamespaceRef, the key of the owning namespace in the parser
namespace map; the Go nil pointer is none. The base schema pointer field
Schema is an Option (nil = none). -/
structure Table where
  NamespaceRef : Option String
  NamespaceID : String
  Name : String
  Aliases : List String
  Description : String
  Attributes : List (String × Scalar)
  Implementation : String
  FuzzPaths : List String
  ExtendedSchemas : List (String × Schema)
  Examples : List String
  Schema : Option Schema
deriving DecidableEq, Repr

/-- NewEmptyTable is a constructor for the Table type. -/
def NewEmptyTable : Table :=
  { NamespaceRef := none, NamespaceID := "", Name := "", Aliases := [],
    Description := "", Attributes := [], Implementation := "", FuzzPaths := [],
    ExtendedSchemas := [], Examples := [], Schema := none }

/-- The aliases keyword loop of ExtractNames: only the aliases keyword is
handled; its value must be a List, whose Str elements are appended to the
alias list; every malformed piece is reported and skipped, never an error. -/
def Table.extractAliases (t : Table) (kws : List (String × PyExpr)) : Table :=
  kws.foldl (fun t kw =>
    if kw.1 = "aliases" then
      match kw.2 with
      | .list elts =>
        { t with Aliases := t.Aliases ++ elts.filterMap (fun e =>
            match e with
            | .str v => some v
            | _ => none) }
      | _ => t
    else t) t

/-- ExtractNames attempts to parse the table_name declaration: Args[0]
(indexed without a bounds check) must be a Str and becomes the name; the
aliases keyword is processed afterwards. -/
def Table.ExtractNames (t : Table) (args : List PyExpr) (kws : List (String × PyExpr)) :
    Res Table :=
  match args.get? 0 with
  | none => .panicked oobMsg
  | some a =>
    match a with
    | .str v => .ok (Table.extractAliases { t with Name := v } kws)
    | _ => .err "argument 0 was not of type string"

/-- ExtractDescription attempts to extract the table description declaration. -/
def Table.ExtractDescription (t : Table) (args : List PyExpr) : Res Table :=
  match args.get? 0 with
  | none => .panicked oobMsg
  | some a =>
    match a with
    | .str v => .ok { t with Description := v }
    | _ => .err "argument 0 was not of type string"

/-- ExtractImplementation attempts to extract the table implementation
declaration. -/
def Table.ExtractImplementation (t : Table) (args : List PyExpr) : Res Table :=
  match args.get? 0 with
  | none => .panicked oobMsg
  | some a =>
    match a with
    | .str v => .ok { t with Implementation := v }
    | _ => .err "argument 0 was not of type string"

/-- The shared body of ExtractFuzzPaths and ExtractExamples (two textually
identical Go loops): Args[0], indexed without a bounds check, must be a List
literal all of whose elements are Str. -/
def extractStringList (args : List PyExpr) : Res (List String) :=
  match args.get? 0 with
  | none => .panicked oobMsg
  | some a =>
    match a with
    | .list elts => strListLoop elts
    | _ => .err "argument 0 was not of type *arg.List"
where
  strListLoop : List PyExpr → Res (List String)
    | [] => .ok []
    | e :: rest =>
      match e with
      | .str v =>
        match strListLoop rest with
        | .ok l => .ok (v :: l)
        | .err e => .err e
        | .panicked m => .panicked m
        | .fatal m => .fatal m
      | _ => .err "expected *past.Str field"

/-- ExtractFuzzPaths attempts to extract the fuzz_paths declaration. -/
def Table.ExtractFuzzPaths (t : Table) (args : List PyExpr) : Res Table :=
  match extractStringList args with
  | .ok l => .ok { t with FuzzPaths := t.FuzzPaths ++ l }
  | .err e => .err e
  | .panicked m => .panicked m
  | .fatal m => .fatal m

/-- ExtractExamples attempts to extract the examples declaration of example
queries. -/
def Table.ExtractExamples (t : Table) (args : List PyExpr) : Res Table :=
  match extractStringList args with
  | .ok l => .ok { t with Examples := t.Examples ++ l }
  | .err e => .err e
  | .panicked m => .panicked m
  | .fatal m => .fatal m

/-- ExtractAttributes merges all keyword arguments of the attributes call
into the free-form attribute map; it never fails. -/
def Table.ExtractAttributes (t : Table) (kws : List (String × PyExpr)) : Table :=
  { t with Attributes := mergeKeywords t.Attributes kws }

/-- Table.ExtractSchema guards against a duplicate base schema, then runs the
schema extraction on a fresh empty schema. In Go the fresh schema is stored
in the table before extraction, so an extraction error leaves a partial
schema behind; since every error path panics in the visitor, that partial
state is unobservable and the embedding stores the schema only on success. -/
def Table.ExtractSchema (t : Table) (func : PyExpr) (args : List PyExpr) : Res Table :=
  match t.Schema with
  | some _ => .err "schema is already a non-nil value for table"
  | none =>
    match Schema.ExtractSchema NewEmptySchema func args with
    | .ok s => .ok { t with Schema := some s }
    | .err e => .err e
    | .panicked m => .panicked m
    | .fatal m => .fatal m

/-- ExtractExtendedSchema runs the schema extraction on a fresh empty schema
and registers the result in the extended-schema map under every platform it
resolved to (a later platform key overwrites an earlier entry with the same
key). -/
def Table.ExtractExtendedSchema (t : Table) (func : PyExpr) (args : List PyExpr) :
    Res Table :=
  match Schema.ExtractSchema NewEmptySchema func args with
  | .ok ext =>
    .ok { t with ExtendedSchemas :=
      ext.Platforms.foldl (fun m platform => mapInsert m platform ext) t.ExtendedSchemas }
  | .err e => .err e
  | .panicked m => .panicked m
  | .fatal m => .fatal m

/-- Conversion of a handler result into the visitor result: a handler error
is raised as a panic by VisitorBranch; the boolean tells the walk whether to
descend into the children of the call node. -/
def panicOnErr (r : Res Table) (descend : Bool) : Res (Table × Bool) :=
  match r with
  | .ok t => .ok (t, descend)
  | .err e => .panicked e
  | .panicked m => .panicked m
  | .fatal m => .fatal m

/-- VisitorBranch routes a call node to a handler by callee name. A callee
that is not a Name logs and stops descent; an unknown callee name logs a
diagnostic and stops descent; a handler error becomes a panic. -/
def Table.VisitorBranch (t : Table) (func : PyExpr) (args : List PyExpr)
    (kws : List (String × PyExpr)) : Res (Table × Bool) :=
  match func with
  | .name funcName =>
    if funcName = "table_name" then panicOnErr (Table.ExtractNames t args kws) true
    else if funcName = "description" then panicOnErr (Table.ExtractDescription t args) true
    else if funcName = "schema" then panicOnErr (Table.ExtractSchema t func args) true
    else if funcName = "Column" then .ok (t, false)
    else if funcName = "attributes" then .ok (Table.ExtractAttributes t kws, false)
    else if funcName = "implementation" then
      panicOnErr (Table.ExtractImplementation t args) true
    else if funcName = "fuzz_paths" then panicOnErr (Table.ExtractFuzzPaths t args) false
    else if funcName = "extended_schema" then
      panicOnErr (Table.ExtractExtendedSchema t func args) false
    else if funcName = "examples" then panicOnErr (Table.ExtractExamples t args) false
    else if funcName = "ForeignKey" then .ok (t, false)
    else .ok (t, false)
  | _ => .ok (t, false)

mutual

/-- The AST walk over one node: a call node is dispatched through
VisitorBranch and, when the branch returns true, its children (func, args,
keyword values, in field order) are walked; every other node is walked
through its children. -/
def walkExpr (t : Table) (e : PyExpr) : Res Table :=
  match e with
  | .call f args kws =>
    match Table.VisitorBranch t f args kws with
    | .ok (t1, descend) =>
      if descend then
        match walkExpr t1 f with
        | .ok t2 =>
          match walkList t2 args with
          | .ok t3 => walkKws t3 kws
          | .err e2 => .err e2
          | .panicked m => .panicked m
          | .fatal m => .fatal m
        | .err e2 => .err e2
        | .panicked m => .panicked m
        | .fatal m => .fatal m
      else .ok t1
    | .err e2 => .err e2
    | .panicked m => .panicked m
    | .fatal m => .fatal m
  | .name _ => .ok t
  | .str _ => .ok t
  | .nameConstant _ => .ok t
  | .list elts => walkList t elts
  | .lambda body => walkExpr t body
  | .boolOp _ values => walkList t values
termination_by structural e

/-- Walk over a list of sibling nodes. -/
def walkList (t : Table) (es : List PyExpr) : Res Table :=
  match es with
  | [] => .ok t
  | e :: rest =>
    match walkExpr t e with
    | .ok t1 => walkList t1 rest
    | .err e2 => .err e2
    | .panicked m => .panicked m
    | .fatal m => .fatal m
termination_by structural es

/-- Walk over the values of a keyword list. -/
def walkKws (t : Table) (ks : List (String × PyExpr)) : Res Table :=
  match ks with
  | [] => .ok t
  | (_, v) :: rest =>
    match walkExpr t v with
    | .ok t1 => walkKws t1 rest
    | .err e2 => .err e2
    | .panicked m => .panicked m
    | .fatal m => .fatal m
termination_by structural ks

end

/-- Namespace is a container to hold compatibility information about an
OSQuery table set. The Go parser back-pointer (never serialized) is rendered
as the flag hasParser (pointer non-nil). -/
structure Namespace where
  hasParser : Bool
  Key : String
  Name : String
  Tables : List (String × Table)
deriving DecidableEq, Repr

/-- NewNamespace creates a new namespace container; every call site passes a
non-nil parser. -/
def NewNamespace (key name : String) : Namespace :=
  { hasParser := true, Key := key, Name := name, Tables := [] }

/-- Parser is a directory walking extraction of OSQuery table definitions. -/
structure Parser where
  SchemaFile : String
  BaseDir : String
  Namespaces : List (String × Namespace)
deriving DecidableEq, Repr

/-- NewParser returns a new parser with an empty namespace map. -/
def NewParser : Parser :=
  { SchemaFile := "", BaseDir := "", Namespaces := [] }

/-- A source file offered to the directory walk: the base name of its parent
directory, its base name split into stem and extension, whether it is a
regular file, and the outcome of the external gpython parser on its content
(Except error for a syntax error). -/
structure SpecFile where
  dir : String
  stem : String
  ext : String
  regular : Bool
  src : Except String (List PyExpr)

/-- One event of the directory walk: a visited file, or an I/O error raised
by the walk itself at that point. -/
inductive WalkEntry where
  | file (f : SpecFile)
  | failure (msg : String)

/-- ParseTableDef parses one specification file: a gpython syntax error is
returned as an error; otherwise a fresh table named after the file stem is
run through the AST walk (whose handler errors panic). -/
def ParseTableDef (f : SpecFile) : Res Table :=
  match f.src with
  | .error e => .err e
  | .ok nodes => walkList { NewEmptyTable with Name := f.stem } nodes

/-- The record-keeping worker body for one parsed table: the namespace key is
the base name of the parent directory; a key missing from CanonicalPlatforms
exits the process through Fatalw; otherwise the namespace is created on
first use and the table inserted under its name (last write wins). -/
def recordTable (p : Parser) (f : SpecFile) (tbl : Table) : Res Parser :=
  let namespaceID := f.dir
  match mapLookup CanonicalPlatforms namespaceID with
  | none => .fatal ("Could not find namespace " ++ namespaceID)
  | some namespaceDescription =>
    let ns := match mapLookup p.Namespaces namespaceID with
      | some ns => ns
      | none => NewNamespace namespaceID namespaceDescription
    let tbl1 := { tbl with NamespaceID := namespaceID, NamespaceRef := some namespaceID }
    let ns1 := { ns with Tables := mapInsert ns.Tables tbl1.Name tbl1 }
    .ok { p with Namespaces := mapInsert p.Namespaces namespaceID ns1 }

/-- The walk callback filter: only regular files with the .table extension
are parsed. -/
def eligible (f : SpecFile) : Bool :=
  f.regular && f.ext == ".table"

/-- ParseDirectory walks a directory structure for all .table files. The Go
pipeline runs the walk and the record-keeping worker concurrently, funneling
parsed tables through a channel; since the worker is the only mutator and
the walk aborts on the first failing callback, the pipeline is rendered as a
sequential fold over the walk events. A walk I/O error or a per-file syntax
error is returned; a visitor panic escapes the walking goroutine and kills
the process. -/
def ParseDirectory (p : Parser) (location : String) (entries : List WalkEntry) :
    Res Parser :=
  match entries with
  | [] => .ok { p with BaseDir := location }
  | .failure e :: _ => .err e
  | .file f :: rest =>
    if eligible f then
      match ParseTableDef f with
      | .err e => .err e
      | .panicked m => .panicked m
      | .fatal m => .fatal m
      | .ok tbl =>
        match recordTable p f tbl with
        | .ok p1 => ParseDirectory p1 location rest
        | .err e => .err e
        | .panicked m => .panicked m
        | .fatal m => .fatal m
    else ParseDirectory p location rest

/-- The loop of Table.ToSQLSchema over one column list, appending the mapped
sql columns to the accumulator; a panic from the type switch propagates. -/
def Table.toSQLCols (tname : String) (cols : List SqlColumn) :
    List Column → Res (List SqlColumn)
  | [] => .ok cols
  | c :: rest =>
    match Column.ToSQLSchema c tname with
    | .ok sc => Table.toSQLCols tname (cols ++ [sc]) rest
    | .err e => .err e
    | .panicked m => .panicked m
    | .fatal m => .fatal m

/-- The loop of Table.ToSQLSchema over the platform filter: a filter entry
with no registered extended schema contributes nothing, one with a
registered schema appends its mapped columns. -/
def Table.toSQLExts (t : Table) (cols : List SqlColumn) :
    List String → Res (List SqlColumn)
  | [] => .ok cols
  | ext :: rest =>
    match mapLookup t.ExtendedSchemas ext with
    | none => Table.toSQLExts t cols rest
    | some extschema =>
      match Table.toSQLCols t.Name cols extschema.Columns with
      | .ok cols1 => Table.toSQLExts t cols1 rest
      | .err e => .err e
      | .panicked m => .panicked m
      | .fatal m => .fatal m

/-- Table.ToSQLSchema builds the ordered sql column list: the base schema
columns first, then the extended schemas selected by the filter. The base
schema pointer is dereferenced without a nil check, so a table without a
base schema panics. -/
def Table.ToSQLSchema (t : Table) (extendedSchemas : List String) :
    Res (List SqlColumn) :=
  match t.Schema with
  | none => .panicked nilDerefMsg
  | some s =>
    match Table.toSQLCols t.Name [] s.Columns with
    | .ok cols => Table.toSQLExts t cols extendedSchemas
    | .err e => .err e
    | .panicked m => .panicked m
    | .fatal m => .fatal m

/-- ErrDatabaseInitialized is thrown when a database has already been
initialized. -/
def ErrDatabaseInitialized : String :=
  "database has already been initialized and cannot be modified"

/-- The virtual Database of virtual/database.go, reduced to the state that
AddTable touches. -/
structure Database where
  initialized : Bool
  name : String
  schemas : List (String × List SqlColumn)
deriving DecidableEq, Repr

/-- Database.AddTable adds a table to the schema manifest: an initialized
database returns an error, otherwise the table sql schema is computed (a
panic in ToSQLSchema propagates) and recorded under the table name. -/
def Database.AddTable (d : Database) (tbl : Table) (osexts : List String) :
    Res Database :=
  if d.initialized then .err ErrDatabaseInitialized
  else
    match Table.ToSQLSchema tbl osexts with
    | .ok schema => .ok { d with schemas := mapInsert d.schemas tbl.Name schema }
    | .err e => .err e
    | .panicked m => .panicked m
    | .fatal m => .fatal m

/-- The wire rendering of a Schema: exactly the json/yaml-tagged fields; the
Table back-pointer carries the dash tag and is absent. -/
structure WireSchema where
  Platforms : List String
  Extended : Bool
  Columns : List Column
  ForeignKeys : List (List (String × Scalar))
deriving DecidableEq, Repr

/-- The wire rendering of a Table: exactly the json/yaml-tagged fields; the
Namespace back-pointer carries the dash tag and is absent. -/
structure WireTable where
  NamespaceID : String
  Name : String
  Aliases : List String
  Description : String
  Attributes : List (String × Scalar)
  Implementation : String
  FuzzPaths : List String
  ExtendedSchemas : List (String × WireSchema)
  Examples : List String
  Schema : Option WireSchema
deriving DecidableEq, Repr

/-- The wire rendering of a Namespace: exactly the json/yaml-tagged fields;
the unexported parser and logger fields are absent. -/
structure WireNamespace where
  Key : String
  Name : String
  Tables : List (String × WireTable)
deriving DecidableEq, Repr

/-- Marshalling of a Schema: drop the back-pointer. -/
def Schema.toWire (s : Schema) : WireSchema :=
  { Platforms := s.Platforms, Extended := s.Extended, Columns := s.Columns,
    ForeignKeys := s.ForeignKeys }

/-- Marshalling of a Table: drop the back-pointer. -/
def Table.toWire (t : Table) : WireTable :=
  { NamespaceID := t.NamespaceID, Name := t.Name, Aliases := t.Aliases,
    Description := t.Description, Attributes := t.Attributes,
    Implementation := t.Implementation, FuzzPaths := t.FuzzPaths,
    ExtendedSchemas := t.ExtendedSchemas.map (fun kv => (kv.1, kv.2.toWire)),
    Examples := t.Examples, Schema := t.Schema.map Schema.toWire }

/-- Marshalling of a Namespace: drop the unexported fields. -/
def Namespace.toWire (ns : Namespace) : WireNamespace :=
  { Key := ns.Key, Name := ns.Name,
    Tables := ns.Tables.map (fun kv => (kv.1, kv.2.toWire)) }

/-- The marshalling step of the CLI exportSchema action: it hands the parser
Namespace map to the external JSON or YAML encoder. Those codecs (external
collaborators) render exactly the tagged fields of each struct, so the wire
encoding omits the dash-tagged back-references (Schema.Table,
Table.Namespace) and the unexported fields (Namespace parser pointer,
loggers). -/
def exportNamespaces (m : List (String × Namespace)) : List (String × WireNamespace) :=
  m.map (fun kv => (kv.1, kv.2.toWire))

/-- Unmarshalling of a Schema: untagged fields take the Go zero value, so the
back-pointer comes back nil. -/
def WireSchema.rehydrate (w : WireSchema) : Schema :=
  { TableRef := none, Platforms := w.Platforms, Extended := w.Extended,
    Columns := w.Columns, ForeignKeys := w.ForeignKeys }

/-- Unmarshalling of a Table: the Namespace back-pointer comes back nil. -/
def WireTable.rehydrate (w : WireTable) : Table :=
  { NamespaceRef := none, NamespaceID := w.NamespaceID, Name := w.Name,
    Aliases := w.Aliases, Description := w.Description, Attributes := w.Attributes,
    Implementation := w.Implementation, FuzzPaths := w.FuzzPaths,
    ExtendedSchemas := w.ExtendedSchemas.map (fun kv => (kv.1, kv.2.rehydrate)),
    Examples := w.Examples, Schema := w.Schema.map WireSchema.rehydrate }

/-- Unmarshalling of a Namespace: the parser pointer comes back nil. -/
def WireNamespace.rehydrate (w : WireNamespace) : Namespace :=
  { hasParser := false, Key := w.Key, Name := w.Name,
    Tables := w.Tables.map (fun kv => (kv.1, kv.2.rehydrate)) }

/-- The per-table body of InjectTables: the Namespace back-pointer is set to
the enclosing namespace (path nsid), NamespaceID is filled only when empty,
and the base and extended schemas get their Table back-pointer set to the
enclosing table (path (nsid, tname)). -/
def injectTable (nsid tname : String) (table : Table) : Table :=
  { table with
    NamespaceRef := some nsid,
    NamespaceID := if table.NamespaceID = "" then nsid else table.NamespaceID,
    Schema := table.Schema.map (fun s => { s with TableRef := some (nsid, tname) }),
    ExtendedSchemas := table.ExtendedSchemas.map
      (fun kv => (kv.1, { kv.2 with TableRef := some (nsid, tname) })) }

/-- The per-namespace body of InjectTables: the parser pointer is set when
absent (the flag becomes true either way) and every table gets its
back-references re-derived. -/
def injectNamespace (nsid : String) (ns : Namespace) : Namespace :=
  { ns with
    hasParser := true,
    Tables := ns.Tables.map (fun tkv => (tkv.1, injectTable nsid tkv.1 tkv.2)) }

/-- InjectTables wires up unmarshalled namespaces with the parser: each
namespace gets the parser pointer when it has none, every table gets its
back-references re-derived, and the namespace is stored in the parser map.
The Go function always returns a nil error. -/
def Parser.InjectTables (p : Parser) (raw : List (String × Namespace)) : Parser :=
  raw.foldl (fun p kv =>
    { p with Namespaces := mapInsert p.Namespaces kv.1 (injectNamespace kv.1 kv.2) }) p

/-- ParseJSONSchemaFile and ParseYAMLSchemaFile, after the external decoder
has produced the wire structures: unmarshal into model structures with nil
back-references and hand them to InjectTables. -/
def Parser.ParseSchemaWire (p : Parser) (wire : List (String × WireNamespace)) : Parser :=
  Parser.InjectTables p (wire.map (fun kv => (kv.1, kv.2.rehydrate)))

/-- Functorial action on the normal outcome. -/
def Res.map {α β : Type} (f : α → β) : Res α → Res β
  | .ok a => .ok (f a)
  | .err e => .err e
  | .panicked m => .panicked m
  | .fatal m => .fatal m

/-- Specification-side effectful map: apply f left to right, stopping at the
first non-ok outcome. -/
def resMapM {α β : Type} (f : α → Res β) : List α → Res (List β)
  | [] => .ok []
  | a :: rest =>
    match f a with
    | .ok b =>
      match resMapM f rest with
      | .ok bs => .ok (b :: bs)
      | .err e => .err e
      | .panicked m => .panicked m
      | .fatal m => .fatal m
    | .err e => .err e
    | .panicked m => .panicked m
    | .fatal m => .fatal m

/-- A column-list element that is a plain column declaration with at least
three positional arguments: a call with a Name callee other than ForeignKey,
which is neither skipped (no positional argument) nor panicking (one or two
positional arguments). -/
def ProperColDecl : PyExpr → Bool
  | .call (.name fid) cargs _ => decide (fid ≠ "ForeignKey") && decide (3 ≤ cargs.length)
  | _ => false

/-- Stated from the code of ParseLambda: an OR operand passes exactly when it
is a call whose callee is a bare identifier resolving in TableCategories;
the argument list of the operand call is never inspected. -/
def lambdaOperandOkB : PyExpr → Bool
  | .call (.name id) _ _ => (mapLookup TableCategories id).isSome
  | _ => false

/-- The concatenation of the category platform lists of the OR operands, in
operand order. -/
def operandsCats (values : List PyExpr) : List String :=
  values.flatMap (fun v =>
    match v with
    | .call (.name id) _ _ => (mapLookup TableCategories id).getD []
    | _ => [])

/-- A walk event that neither is a walk failure nor makes the pipeline stop:
an ineligible file, or an eligible file whose parse succeeds and whose
parent directory is a canonical namespace. -/
def entryClean : WalkEntry → Bool
  | .failure _ => false
  | .file f =>
    !(eligible f) || ((ParseTableDef f).isOk && (mapLookup CanonicalPlatforms f.dir).isSome)

/-- A specification file whose schema declaration has a malformed shape (the
column-list argument is a Str, not a List) but whose python source parses. -/
def badSchemaShapeFile : SpecFile :=
  { dir := "linux", stem := "foo", ext := ".table", regular := true,
    src := .ok [.call (.name "schema") [.str "notalist"] []] }

/-- A well-formed specification file used as a passing neighbour in the
directory-walk counterexample. -/
def groupsFile : SpecFile :=
  { dir := "linux", stem := "groups", ext := ".table", regular := true,
    src := .ok
      [.call (.name "table_name") [.str "groups"] [],
       .call (.name "schema")
         [.list [.call (.name "Column") [.str "gid", .name "BIGINT", .str "g"] []]] []] }

/-- A specification file rejected by the external python parser. -/
def syntaxErrFile : SpecFile :=
  { dir := "linux", stem := "broken", ext := ".table", regular := true,
    src := .error "invalid syntax" }

/-- The schema produced by extracting a declared list holding a ForeignKey
entry followed by one column: the single column carries Index 1, the
position of its declaration in the full element list. -/
def c1CexSchema : Schema :=
  { TableRef := none, Platforms := [], Extended := false,
    Columns := [{ Index := 1, Name := "a", typ := "TEXT", Description := "d",
                  Aliases := [], Options := [] }],
    ForeignKeys := [[("column", .string "uid")]] }

/-- The extended schema registered by the WINDOWS-or-LINUX lambda example. -/
def c9ExtSchema : Schema :=
  { TableRef := none, Platforms := ["windows", "win32", "cygwin", "linux"],
    Extended := true, Columns := [], ForeignKeys := [] }

/-- The table state after extracting the WINDOWS-or-LINUX extended_schema
call on a fresh table. -/
def c9Table : Table :=
  { NewEmptyTable with ExtendedSchemas :=
      [("windows", c9ExtSchema), ("win32", c9ExtSchema),
       ("cygwin", c9ExtSchema), ("linux", c9ExtSchema)] }

/-- Correct re-derivation of the back-references of one table located at
(nsid, tname): the Namespace pointer names the enclosing namespace, and the
base and extended schemas point at the enclosing table. -/
def refsCorrectTable (nsid tname : String) (t : Table) : Bool :=
  (t.NamespaceRef == some nsid) &&
  (match t.Schema with
   | none => true
   | some s => s.TableRef == some (nsid, tname)) &&
  t.ExtendedSchemas.all (fun kv => kv.2.TableRef == some (nsid, tname))

/-- Correct re-derivation of every back-reference in a namespace map. -/
def refsCorrect (m : List (String × Namespace)) : Bool :=
  m.all (fun kv =>
    kv.2.hasParser && kv.2.Tables.all (fun tkv => refsCorrectTable kv.1 tkv.1 tkv.2))

/-- Projection of a wire table onto the externally visible fields named by
the round-trip property (the namespace_id field, filled in by InjectTables
when it was absent, is blanked). -/
def WireTable.visible (w : WireTable) : WireTable :=
  { w with NamespaceID := "" }

/-- Projection of a wire namespace onto the externally visible fields. -/
def WireNamespace.visible (w : WireNamespace) : WireNamespace :=
  { w with Tables := w.Tables.map (fun kv => (kv.1, kv.2.visible)) }

/-- The visible-field export of a namespace map. -/
def visibleExport (m : List (String × Namespace)) : List (String × WireNamespace) :=
  (exportNamespaces m).map (fun kv => (kv.1, kv.2.visible))

/-- Every table of the map carries a non-empty NamespaceID (true of every
map produced by directory ingestion, whose aggregator fills the field). -/
def noEmptyNamespaceIDs (m : List (String × Namespace)) : Bool :=
  m.all (fun kv => kv.2.Tables.all (fun tkv => tkv.2.NamespaceID != ""))

/-- A concrete namespace map exercising every wire field for the round-trip
witness: one namespace holding one table with a base schema, an extended
schema, attributes and foreign keys. -/
def rtTable : Table :=
  { NamespaceRef := some "linux", NamespaceID := "linux", Name := "groups",
    Aliases := ["grp"], Description := "Local system groups.",
    Attributes := [("cacheable", .const .pyTrue)],
    Implementation := "groups@genGroups", FuzzPaths := ["/etc/group"],
    ExtendedSchemas :=
      [("darwin",
        { TableRef := some ("linux", "groups"), Platforms := ["darwin"],
          Extended := true,
          Columns := [{ Index := 0, Name := "uuid", typ := "TEXT",
                        Description := "u", Aliases := [], Options := [] }],
          ForeignKeys := [] })],
    Examples := ["select * from groups"],
    Schema := some
      { TableRef := some ("linux", "groups"), Platforms := [], Extended := false,
        Columns := [{ Index := 0, Name := "gid", typ := "BIGINT", Description := "g",
                      Aliases := [], Options := [("index", .const .pyTrue)] }],
        ForeignKeys := [[("column", .string "gid")]] } }

/-- The namespace map wrapping rtTable. -/
def rtMap : List (String × Namespace) :=
  [("linux",
    { hasParser := true, Key := "linux", Name := "Ubuntu, CentOS",
      Tables := [("groups", rtTable)] })]

/-- Stated from the code of ParseLambda: a lambda body passes exactly when it
is a boolean OR expression all of whose operands pass lambdaOperandOkB. -/
def lambdaBodyOkB : PyExpr → Bool
  | .boolOp .opOr values => values.all lambdaOperandOkB
  | _ => false

/-- The category platform lists contributed by a lambda body. -/
def bodyCats : PyExpr → List String
  | .boolOp _ values => operandsCats values
  | _ => []

/-- A schema with one platform already present, used to witness the
idempotence half of the platform-union property. -/
def c8Schema : Schema :=
  { TableRef := none, Platforms := ["linux"], Extended := false,
    Columns := [], ForeignKeys := [] }

/-- A base schema with one TEXT column, used to witness ToSQLSchema ordering. -/
def c5Base : Schema :=
  { TableRef := none, Platforms := [], Extended := false,
    Columns := [{ Index := 0, Name := "a", typ := "TEXT", Description := "",
                  Aliases := [], Options := [] }],
    ForeignKeys := [] }

/-- An extended schema registered under the windows key, used to witness
ToSQLSchema ordering. -/
def c5Ext : Schema :=
  { TableRef := none, Platforms := ["windows"], Extended := true,
    Columns := [{ Index := 0, Name := "w", typ := "BIGINT", Description := "",
                  Aliases := [], Options := [] }],
    ForeignKeys := [] }

/-- A table with a base schema and one registered extended schema, used to
witness ToSQLSchema ordering. -/
def c5Table : Table :=
  { NewEmptyTable with
    Name := "t", Schema := some c5Base,
    ExtendedSchemas := [("windows", c5Ext)] }

/-- The column that Schema.extractColumns builds for a plain column
declaration sitting at position k of the declared list: the three positional
reads with their fallback-to-empty coercions, plus the keyword options. -/
def properColumnOf (cargs : List PyExpr) (ckws : List (String × PyExpr)) (k : Nat) :
    Column :=
  { Index := k,
    Name := match cargs.get? 0 with
      | some (PyExpr.str v) => v
      | _ => "",
    typ := match cargs.get? 1 with
      | some (PyExpr.name v) => v
      | _ => "",
    Description := match cargs.get? 2 with
      | some (PyExpr.str v) => v
      | _ => "",
    Aliases := [], Options := mergeKeywords [] ckws }

lemma mem_insertUniq {acc : List String} {x y : String} :
    y ∈ insertUniq acc x ↔ y ∈ acc ∨ y = x := by
  unfold insertUniq
  split
  · rename_i h
    exact ⟨fun hy => Or.inl hy, fun hy => hy.elim id (fun hyx => hyx ▸ h)⟩
  · simp [List.mem_append]

lemma mem_foldl_insertUniq : ∀ (l acc : List String) (y : String),
    y ∈ l.foldl insertUniq acc ↔ y ∈ acc ∨ y ∈ l := by
  intro l
  induction l with
  | nil => simp
  | cons x rest ih =>
    intro acc y
    simp only [List.foldl_cons, ih, mem_insertUniq, List.mem_cons]
    tauto

lemma mem_unionPlatforms {old extra : List String} {y : String} :
    y ∈ unionPlatforms old extra ↔ y ∈ old ∨ y ∈ extra := by
  unfold unionPlatforms
  rw [mem_foldl_insertUniq]
  simp [List.mem_append]

lemma nodup_insertUniq {acc : List String} (h : acc.Nodup) (x : String) :
    (insertUniq acc x).Nodup := by
  unfold insertUniq
  split
  · exact h
  · rename_i hx
    simp [List.nodup_append, h, hx]

lemma nodup_foldl_insertUniq : ∀ (l acc : List String), acc.Nodup →
    (l.foldl insertUniq acc).Nodup := by
  intro l
  induction l with
  | nil => intro acc h; simpa using h
  | cons x rest ih =>
    intro acc h
    exact ih _ (nodup_insertUniq h x)

lemma nodup_unionPlatforms (old extra : List String) :
    (unionPlatforms old extra).Nodup :=
  nodup_foldl_insertUniq _ _ List.nodup_nil

lemma parseLambdaValues_ok_iff : ∀ (values : List PyExpr) (s : Schema),
    (∃ s1, Schema.parseLambdaValues s values = .ok s1) ↔
      values.all lambdaOperandOkB = true := by
  intro values
  induction values with
  | nil => intro s; simp [Schema.parseLambdaValues]
  | cons v rest ih =>
    intro s
    cases v with
    | call f cargs ckws =>
      cases f with
      | name id =>
        cases h : mapLookup TableCategories id with
        | none => simp [Schema.parseLambdaValues, h, lambdaOperandOkB]
        | some l => simp [Schema.parseLambdaValues, h, lambdaOperandOkB, ih]
      | call f2 a2 k2 => simp [Schema.parseLambdaValues, lambdaOperandOkB]
      | str v2 => simp [Schema.parseLambdaValues, lambdaOperandOkB]
      | nameConstant v2 => simp [Schema.parseLambdaValues, lambdaOperandOkB]
      | list e2 => simp [Schema.parseLambdaValues, lambdaOperandOkB]
      | lambda b2 => simp [Schema.parseLambdaValues, lambdaOperandOkB]
      | boolOp o2 v2 => simp [Schema.parseLambdaValues, lambdaOperandOkB]
    | name id => simp [Schema.parseLambdaValues, lambdaOperandOkB]
    | str v2 => simp [Schema.parseLambdaValues, lambdaOperandOkB]
    | nameConstant v2 => simp [Schema.parseLambdaValues, lambdaOperandOkB]
    | list e2 => simp [Schema.parseLambdaValues, lambdaOperandOkB]
    | lambda b2 => simp [Schema.parseLambdaValues, lambdaOperandOkB]
    | boolOp o2 v2 => simp [Schema.parseLambdaValues, lambdaOperandOkB]

lemma parseLambdaValues_mem : ∀ (values : List PyExpr) (s s1 : Schema),
    Schema.parseLambdaValues s values = .ok s1 →
    ∀ x, x ∈ s1.Platforms ↔ x ∈ s.Platforms ∨ x ∈ operandsCats values := by
  intro values
  induction values with
  | nil =>
    intro s s1 h x
    simp only [Schema.parseLambdaValues, Res.ok.injEq] at h
    subst h
    simp [operandsCats]
  | cons v rest ih =>
    intro s s1 h x
    cases v with
    | call f cargs ckws =>
      cases f with
      | name id =>
        cases hl : mapLookup TableCategories id with
        | none => simp [Schema.parseLambdaValues, hl] at h
        | some l =>
          simp only [Schema.parseLambdaValues, hl] at h
          have hm := ih _ _ h x
          simp only [Schema.mergePlatformList, mem_unionPlatforms] at hm
          rw [hm]
          simp only [operandsCats, List.flatMap_cons, hl, Option.getD_some, List.mem_append]
          tauto
      | call f2 a2 k2 => simp [Schema.parseLambdaValues] at h
      | str v2 => simp [Schema.parseLambdaValues] at h
      | nameConstant v2 => simp [Schema.parseLambdaValues] at h
      | list e2 => simp [Schema.parseLambdaValues] at h
      | lambda b2 => simp [Schema.parseLambdaValues] at h
      | boolOp o2 v2 => simp [Schema.parseLambdaValues] at h
    | name id => simp [Schema.parseLambdaValues] at h
    | str v2 => simp [Schema.parseLambdaValues] at h
    | nameConstant v2 => simp [Schema.parseLambdaValues] at h
    | list e2 => simp [Schema.parseLambdaValues] at h
    | lambda b2 => simp [Schema.parseLambdaValues] at h
    | boolOp o2 v2 => simp [Schema.parseLambdaValues] at h

/-- Claim C6 (counterexample): the claim says ParseLambda fails whenever some
OR operand is not a zero-argument call to a bare identifier; but on the body
WINDOWS("x") or-ed alone — a one-argument call — ParseLambda succeeds, because
the code never inspects the operand argument list. -/
theorem c6_counterexample :
    Schema.ParseLambda NewEmptySchema
      (.boolOp .opOr [.call (.name "WINDOWS") [.str "x"] []]) =
      .ok { TableRef := none, Platforms := ["windows", "win32", "cygwin"],
            Extended := false, Columns := [], ForeignKeys := [] } := by
  decide

/-- Claim C6 (amended): ParseLambda fails with a hard parse error exactly
when the lambda body is not a boolean OR expression, or some OR operand is
not a call whose callee is a bare identifier resolving in the category
table — the argument count of the operand call is never checked; on every
other input it succeeds, and the resulting platform set is the union of the
previous platform set with the category platform lists of the operands. -/
theorem c6_amended :
    ∀ (s : Schema) (body : PyExpr),
    ((∃ s1, Schema.ParseLambda s body = .ok s1) ↔ lambdaBodyOkB body = true) ∧
    (∀ s1, Schema.ParseLambda s body = .ok s1 →
      ∀ x, x ∈ s1.Platforms ↔ x ∈ s.Platforms ∨ x ∈ bodyCats body) := by
  intro s body
  cases body with
  | boolOp op values =>
    cases op with
    | opAnd => simp [Schema.ParseLambda, lambdaBodyOkB]
    | opOr =>
      constructor
      · simpa [Schema.ParseLambda, lambdaBodyOkB] using parseLambdaValues_ok_iff values s
      · intro s1 h x
        simp only [Schema.ParseLambda, if_pos rfl] at h
        simpa [bodyCats] using parseLambdaValues_mem values s s1 h x
  | call f cargs ckws => simp [Schema.ParseLambda, lambdaBodyOkB]
  | name id => simp [Schema.ParseLambda, lambdaBodyOkB]
  | str v => simp [Schema.ParseLambda, lambdaBodyOkB]
  | nameConstant v => simp [Schema.ParseLambda, lambdaBodyOkB]
  | list e => simp [Schema.ParseLambda, lambdaBodyOkB]
  | lambda b => simp [Schema.ParseLambda, lambdaBodyOkB]

/-- Claim C6 (witness): the amended statement applied to a concrete schema
and lambda body, with the success hypothesis discharged by evaluation. -/
theorem c6_amended_witness :
    ((∃ s1, Schema.ParseLambda NewEmptySchema
        (.boolOp .opOr [.call (.name "LINUX") [] []]) = .ok s1) ↔
      lambdaBodyOkB (.boolOp .opOr [.call (.name "LINUX") [] []]) = true) ∧
    (∀ x, x ∈ unionPlatforms [] ["linux"] ↔
      x ∈ NewEmptySchema.Platforms ∨
        x ∈ bodyCats (.boolOp .opOr [.call (.name "LINUX") [] []])) := by
  refine ⟨(c6_amended NewEmptySchema _).1, ?_⟩
  exact (c6_amended NewEmptySchema (.boolOp .opOr [.call (.name "LINUX") [] []])).2
    { TableRef := none, Platforms := unionPlatforms [] ["linux"], Extended := false,
      Columns := [], ForeignKeys := [] } (by decide)

/-- Claim C8: the platform-set union performed by the lambda merge is
idempotent and commutative as a set operation: merging a category all of
whose members are already present leaves the platform set unchanged as a
set, and merging category c1 then c2 yields the same final platform set (as
a set) as merging c2 then c1. -/
theorem c8_union :
    ∀ (s : Schema) (c1 c2 : String) (l1 l2 : List String),
    mapLookup TableCategories c1 = some l1 →
    mapLookup TableCategories c2 = some l2 →
    ((∀ x ∈ l1, x ∈ s.Platforms) →
      ∃ s1, Schema.ParseLambda s (.boolOp .opOr [.call (.name c1) [] []]) = .ok s1 ∧
        ∀ x, x ∈ s1.Platforms ↔ x ∈ s.Platforms) ∧
    (∃ s12 s21,
      Schema.ParseLambda s
        (.boolOp .opOr [.call (.name c1) [] [], .call (.name c2) [] []]) = .ok s12 ∧
      Schema.ParseLambda s
        (.boolOp .opOr [.call (.name c2) [] [], .call (.name c1) [] []]) = .ok s21 ∧
      ∀ x, x ∈ s12.Platforms ↔ x ∈ s21.Platforms) := by
  intro s c1 c2 l1 l2 h1 h2
  constructor
  · intro hsub
    refine ⟨s.mergePlatformList l1, ?_, ?_⟩
    · simp [Schema.ParseLambda, Schema.parseLambdaValues, h1]
    · intro x
      simp only [Schema.mergePlatformList, mem_unionPlatforms]
      exact ⟨fun hx => hx.elim id (fun hx1 => hsub x hx1), Or.inl⟩
  · refine ⟨(s.mergePlatformList l1).mergePlatformList l2,
      (s.mergePlatformList l2).mergePlatformList l1, ?_, ?_, ?_⟩
    · simp [Schema.ParseLambda, Schema.parseLambdaValues, h1, h2]
    · simp [Schema.ParseLambda, Schema.parseLambdaValues, h1, h2]
    · intro x
      simp only [Schema.mergePlatformList, mem_unionPlatforms]
      tauto

/-- Claim C8 (witness): the union statement applied to the LINUX and WINDOWS
categories over a schema already holding the linux platform. -/
theorem c8_union_witness :
    ((∀ x ∈ ["linux"], x ∈ c8Schema.Platforms) →
      ∃ s1, Schema.ParseLambda c8Schema
        (.boolOp .opOr [.call (.name "LINUX") [] []]) = .ok s1 ∧
        ∀ x, x ∈ s1.Platforms ↔ x ∈ c8Schema.Platforms) ∧
    (∃ s12 s21,
      Schema.ParseLambda c8Schema
        (.boolOp .opOr [.call (.name "LINUX") [] [], .call (.name "WINDOWS") [] []]) = .ok s12 ∧
      Schema.ParseLambda c8Schema
        (.boolOp .opOr [.call (.name "WINDOWS") [] [], .call (.name "LINUX") [] []]) = .ok s21 ∧
      ∀ x, x ∈ s12.Platforms ↔ x ∈ s21.Platforms) :=
  c8_union c8Schema "LINUX" "WINDOWS" ["linux"] ["windows", "win32", "cygwin"]
    (by decide) (by decide)


lemma extractColumns_cons_proper (s : Schema) (fid : String) (cargs : List PyExpr)
    (ckws : List (String × PyExpr)) (rest : List PyExpr) (k : Nat)
    (hfk : ¬ fid = "ForeignKey") (hlen : 3 ≤ cargs.length)
    (a1 a2 : PyExpr) (ha1 : cargs.get? 1 = some a1) (ha2 : cargs.get? 2 = some a2) :
    Schema.extractColumns s (.call (.name fid) cargs ckws :: rest) k =
      Schema.extractColumns
        { s with Columns := s.Columns ++ [properColumnOf cargs ckws k] } rest (k + 1) := by
  simp only [Schema.extractColumns, if_neg hfk,
    if_neg (show ¬ cargs.length < 1 by omega), properColumnOf]
  rw [ha1, ha2]
  cases a1 <;> cases a2 <;> rfl

lemma extractColumns_proper : ∀ (elts : List PyExpr) (s : Schema) (k : Nat),
    (∀ e ∈ elts, ProperColDecl e = true) →
    ∃ cols, Schema.extractColumns s elts k =
        .ok { s with Columns := s.Columns ++ cols } ∧
      cols.map Column.Index = List.range' k elts.length := by
  intro elts
  induction elts with
  | nil =>
    intro s k _
    exact ⟨[], by simp [Schema.extractColumns], by simp⟩
  | cons e rest ih =>
    intro s k hp
    have hpe := hp e (List.mem_cons_self e rest)
    have hprest : ∀ e2 ∈ rest, ProperColDecl e2 = true :=
      fun e2 he2 => hp e2 (List.mem_cons_of_mem e he2)
    cases e with
    | call cfunc cargs ckws =>
      cases cfunc with
      | name fid =>
        simp only [ProperColDecl, Bool.and_eq_true, decide_eq_true_eq] at hpe
        obtain ⟨hfk, hlen⟩ := hpe
        obtain ⟨a1, ha1⟩ : ∃ a, cargs.get? 1 = some a := by
          cases hg : cargs.get? 1 with
          | none => exact absurd (List.get?_eq_none.mp hg) (by omega)
          | some a => exact ⟨a, rfl⟩
        obtain ⟨a2, ha2⟩ : ∃ a, cargs.get? 2 = some a := by
          cases hg : cargs.get? 2 with
          | none => exact absurd (List.get?_eq_none.mp hg) (by omega)
          | some a => exact ⟨a, rfl⟩
        obtain ⟨cols, hrec, hmap⟩ :=
          ih { s with Columns := s.Columns ++ [properColumnOf cargs ckws k] } (k + 1) hprest
        refine ⟨properColumnOf cargs ckws k :: cols, ?_, ?_⟩
        · rw [extractColumns_cons_proper s fid cargs ckws rest k hfk hlen a1 a2 ha1 ha2,
            hrec]
          simp
        · simp only [List.map_cons, hmap, List.length_cons, List.range'_succ,
            properColumnOf]
      | call f2 b2 k2 => simp [ProperColDecl] at hpe
      | str v2 => simp [ProperColDecl] at hpe
      | nameConstant v2 => simp [ProperColDecl] at hpe
      | list e2 => simp [ProperColDecl] at hpe
      | lambda b2 => simp [ProperColDecl] at hpe
      | boolOp o2 v2 => simp [ProperColDecl] at hpe
    | name id => simp [ProperColDecl] at hpe
    | str v2 => simp [ProperColDecl] at hpe
    | nameConstant v2 => simp [ProperColDecl] at hpe
    | list e2 => simp [ProperColDecl] at hpe
    | lambda b2 => simp [ProperColDecl] at hpe
    | boolOp o2 v2 => simp [ProperColDecl] at hpe

/-- Claim C1 (counterexample): the claim says the Index fields of the
extracted Columns list are exactly 0..n-1 in declaration order even when the
declared list also holds ForeignKey entries; but extracting the accepted
list holding a ForeignKey entry followed by one Column yields one column
whose Index is 1, not the contiguous range 0..0. -/
theorem c1_counterexample :
    Schema.ExtractSchema NewEmptySchema (.name "schema")
      [.list [.call (.name "ForeignKey") [] [("column", PyExpr.str "uid")],
              .call (.name "Column") [.str "a", .name "TEXT", .str "d"] []]] =
      .ok c1CexSchema ∧
    ¬ c1CexSchema.Columns.map Column.Index =
        List.range c1CexSchema.Columns.length :=
  ⟨by decide, by decide⟩

/-- Claim C1 (amended): each extracted column carries as Index the position
of its declaration in the full declared element list, so ForeignKey entries
and skipped entries occupy positions too; when every element of the declared
list is a plain column declaration with at least three positional arguments,
the Index fields are exactly 0..n-1 in declaration order, set once at
creation. -/
theorem c1_amended :
    ∀ (elts : List PyExpr),
    (∀ e ∈ elts, ProperColDecl e = true) →
    ∃ s, Schema.ExtractSchema NewEmptySchema (.name "schema") [.list elts] = .ok s ∧
      s.Columns.map Column.Index = List.range elts.length := by
  intro elts hp
  obtain ⟨cols, hrec, hmap⟩ := extractColumns_proper elts NewEmptySchema 0 hp
  refine ⟨{ NewEmptySchema with Columns := NewEmptySchema.Columns ++ cols }, ?_, ?_⟩
  · simp only [Schema.ExtractSchema]
    rw [if_neg (show ¬ ("schema" = "extended_schema") by decide)]
    exact hrec
  · rw [List.range_eq_range']
    simpa [NewEmptySchema] using hmap

/-- Claim C1 (witness): the amended statement applied to a two-column list,
its hypothesis discharged by evaluation. -/
theorem c1_amended_witness :
    (∀ e ∈ [PyExpr.call (.name "Column") [.str "gid", .name "BIGINT", .str "g"] [],
            PyExpr.call (.name "Column") [.str "gid_signed", .name "BIGINT", .str "gs"] []],
      ProperColDecl e = true) ∧
    ∃ s, Schema.ExtractSchema NewEmptySchema (.name "schema")
        [.list [PyExpr.call (.name "Column") [.str "gid", .name "BIGINT", .str "g"] [],
                PyExpr.call (.name "Column") [.str "gid_signed", .name "BIGINT", .str "gs"] []]] =
        .ok s ∧
      s.Columns.map Column.Index = List.range 2 :=
  ⟨by decide, c1_amended _ (by decide)⟩

/-- Claim C3: Schema.ExtractSchema is not total over parser-accepted inputs:
a schema() call with no arguments, an extended_schema() call with no
arguments or with only its platform argument, and a column declaration with
exactly one or exactly two positional arguments all make it panic with an
index-out-of-range runtime error instead of returning an error. -/
theorem c3_partiality :
    Schema.ExtractSchema NewEmptySchema (.name "schema") [] = .panicked oobMsg ∧
    Schema.ExtractSchema NewEmptySchema (.name "extended_schema") [] = .panicked oobMsg ∧
    Schema.ExtractSchema NewEmptySchema (.name "extended_schema") [.name "LINUX"] =
      .panicked oobMsg ∧
    Schema.ExtractSchema NewEmptySchema (.name "schema")
      [.list [.call (.name "Column") [.str "a"] []]] = .panicked oobMsg ∧
    Schema.ExtractSchema NewEmptySchema (.name "schema")
      [.list [.call (.name "Column") [.str "a", .name "TEXT"] []]] = .panicked oobMsg :=
  ⟨by decide, by decide, by decide, by decide, by decide⟩

/-- Claim C7: column type validation is deferred. Extraction stores any bare
identifier as the column type without validation, while Column.ToSQLSchema
succeeds exactly on the eight recognized tokens, maps each to its engine
primitive type, and panics on every other token. -/
theorem c7_deferred_validation :
    ∀ (ty nm ds tn : String) (c : Column),
    Schema.ExtractSchema NewEmptySchema (.name "schema")
      [.list [.call (.name "Column") [.str nm, .name ty, .str ds] []]] =
      .ok { TableRef := none, Platforms := [], Extended := false,
            Columns := [{ Index := 0, Name := nm, typ := ty, Description := ds,
                          Aliases := [], Options := [] }],
            ForeignKeys := [] } ∧
    ((∃ sc, Column.ToSQLSchema c tn = .ok sc) ↔
      c.typ ∈ ["TEXT", "DATE", "DATETIME", "INTEGER", "BIGINT",
               "UNSIGNED_BIGINT", "DOUBLE", "BLOB"]) ∧
    (c.typ ∉ ["TEXT", "DATE", "DATETIME", "INTEGER", "BIGINT",
              "UNSIGNED_BIGINT", "DOUBLE", "BLOB"] →
      Column.ToSQLSchema c tn =
        .panicked ("unsupported type " ++ c.typ ++ " for column " ++ c.Name)) ∧
    Column.ToSQLSchema { c with typ := "TEXT" } tn =
      .ok { Name := c.Name, Source := tn, Nullable := true, typ := .text } ∧
    Column.ToSQLSchema { c with typ := "DATE" } tn =
      .ok { Name := c.Name, Source := tn, Nullable := true, typ := .date } ∧
    Column.ToSQLSchema { c with typ := "DATETIME" } tn =
      .ok { Name := c.Name, Source := tn, Nullable := true, typ := .timestamp } ∧
    Column.ToSQLSchema { c with typ := "INTEGER" } tn =
      .ok { Name := c.Name, Source := tn, Nullable := true, typ := .int32 } ∧
    Column.ToSQLSchema { c with typ := "BIGINT" } tn =
      .ok { Name := c.Name, Source := tn, Nullable := true, typ := .int64 } ∧
    Column.ToSQLSchema { c with typ := "UNSIGNED_BIGINT" } tn =
      .ok { Name := c.Name, Source := tn, Nullable := true, typ := .uint64 } ∧
    Column.ToSQLSchema { c with typ := "DOUBLE" } tn =
      .ok { Name := c.Name, Source := tn, Nullable := true, typ := .float64 } ∧
    Column.ToSQLSchema { c with typ := "BLOB" } tn =
      .ok { Name := c.Name, Source := tn, Nullable := true, typ := .blob } := by
  intro ty nm ds tn c
  refine ⟨rfl, ?_, ?_, rfl, rfl, rfl, rfl, rfl, rfl, rfl, rfl⟩
  · unfold Column.ToSQLSchema
    split_ifs with h1 h2 h3 h4 h5 h6 h7 h8 <;> simp_all
  · intro hn
    unfold Column.ToSQLSchema
    split_ifs with h1 h2 h3 h4 h5 h6 h7 h8 <;> simp_all

/-- Claim C7 (witness): the deferred-validation statement applied to a
concrete exotic type token, with the panic branch hypothesis discharged by
evaluation. -/
theorem c7_deferred_validation_witness :
    Schema.ExtractSchema NewEmptySchema (.name "schema")
      [.list [.call (.name "Column") [.str "pid", .name "FANCY_INT", .str "d"] []]] =
      .ok { TableRef := none, Platforms := [], Extended := false,
            Columns := [{ Index := 0, Name := "pid", typ := "FANCY_INT",
                          Description := "d", Aliases := [], Options := [] }],
            ForeignKeys := [] } ∧
    Column.ToSQLSchema
        { Index := 0, Name := "pid", typ := "FANCY_INT", Description := "d",
          Aliases := [], Options := [] } "t" =
      .panicked ("unsupported type " ++ "FANCY_INT" ++ " for column " ++ "pid") := by
  refine ⟨(c7_deferred_validation "FANCY_INT" "pid" "d" "t" NewEmptyColumn).1, ?_⟩
  exact (c7_deferred_validation "FANCY_INT" "pid" "d" "t"
    { Index := 0, Name := "pid", typ := "FANCY_INT", Description := "d",
      Aliases := [], Options := [] }).2.2.1 (by decide)

/-- Claim C9: extracting an extended_schema call whose platform argument is
the lambda with body WINDOWS() or LINUX() registers the schema in the
extended-schema map under exactly the four platform keys of the union of the
WINDOWS and LINUX categories, with no duplicate keys. -/
theorem c9_lambda_registration :
    Table.ExtractExtendedSchema NewEmptyTable (.name "extended_schema")
      [.lambda (.boolOp .opOr [.call (.name "WINDOWS") [] [],
                               .call (.name "LINUX") [] []]),
       .list []] = .ok c9Table ∧
    (c9Table.ExtendedSchemas.map Prod.fst).Perm
      ["windows", "win32", "cygwin", "linux"] ∧
    (c9Table.ExtendedSchemas.map Prod.fst).Nodup :=
  ⟨by decide, by decide, by decide⟩

/-- Claim C10: a table whose base schema pointer is nil makes ToSQLSchema
panic with a nil-pointer dereference, and Database.AddTable, which calls it
on a not-yet-initialized database, panics the same way instead of returning
an error. -/
theorem c10_nil_schema_panic :
    ∀ (t : Table) (exts : List String) (d : Database),
    t.Schema = none → d.initialized = false →
    Table.ToSQLSchema t exts = .panicked nilDerefMsg ∧
    Database.AddTable d t exts = .panicked nilDerefMsg := by
  intro t exts d hs hd
  have h1 : Table.ToSQLSchema t exts = .panicked nilDerefMsg := by
    simp [Table.ToSQLSchema, hs]
  refine ⟨h1, ?_⟩
  simp [Database.AddTable, hd, h1]

/-- Claim C10 (witness): the nil-schema panic applied to the empty table and
a fresh database. -/
theorem c10_nil_schema_panic_witness :
    Table.ToSQLSchema NewEmptyTable ["linux"] = .panicked nilDerefMsg ∧
    Database.AddTable { initialized := false, name := "vosqt", schemas := [] }
      NewEmptyTable ["linux"] = .panicked nilDerefMsg :=
  c10_nil_schema_panic NewEmptyTable ["linux"]
    { initialized := false, name := "vosqt", schemas := [] } rfl rfl


lemma resMapM_append {α β : Type} (f : α → Res β) : ∀ (a b : List α),
    resMapM f (a ++ b) =
      match resMapM f a with
      | .ok l1 => (resMapM f b).map (fun l2 => l1 ++ l2)
      | .err e => .err e
      | .panicked m => .panicked m
      | .fatal m => .fatal m := by
  intro a b
  induction a with
  | nil =>
    simp only [List.nil_append, resMapM]
    cases resMapM f b <;> simp [Res.map]
  | cons x rest ih =>
    cases hx : f x with
    | ok bx =>
      cases hr : resMapM f rest with
      | ok lr =>
        cases hb : resMapM f b with
        | ok lb => simp [resMapM, hx, hr, hb, ih, Res.map]
        | err e => simp [resMapM, hx, hr, hb, ih, Res.map]
        | panicked m => simp [resMapM, hx, hr, hb, ih, Res.map]
        | fatal m => simp [resMapM, hx, hr, hb, ih, Res.map]
      | err e => simp [resMapM, hx, hr, ih, Res.map]
      | panicked m => simp [resMapM, hx, hr, ih, Res.map]
      | fatal m => simp [resMapM, hx, hr, ih, Res.map]
    | err e => simp [resMapM, hx]
    | panicked m => simp [resMapM, hx]
    | fatal m => simp [resMapM, hx]

lemma toSQLCols_eq (tname : String) : ∀ (cs : List Column) (cols : List SqlColumn),
    Table.toSQLCols tname cols cs =
      (resMapM (fun c => Column.ToSQLSchema c tname) cs).map (fun l => cols ++ l) := by
  intro cs
  induction cs with
  | nil => intro cols; simp [Table.toSQLCols, resMapM, Res.map]
  | cons c rest ih =>
    intro cols
    cases hc : Column.ToSQLSchema c tname with
    | ok sc =>
      cases hr : resMapM (fun c2 => Column.ToSQLSchema c2 tname) rest with
      | ok lr => simp [Table.toSQLCols, resMapM, hc, hr, ih, Res.map]
      | err e => simp [Table.toSQLCols, resMapM, hc, hr, ih, Res.map]
      | panicked m => simp [Table.toSQLCols, resMapM, hc, hr, ih, Res.map]
      | fatal m => simp [Table.toSQLCols, resMapM, hc, hr, ih, Res.map]
    | err e => simp [Table.toSQLCols, resMapM, hc, Res.map]
    | panicked m => simp [Table.toSQLCols, resMapM, hc, Res.map]
    | fatal m => simp [Table.toSQLCols, resMapM, hc, Res.map]

lemma toSQLExts_eq (t : Table) : ∀ (exts : List String) (cols : List SqlColumn),
    Table.toSQLExts t cols exts =
      (resMapM (fun c => Column.ToSQLSchema c t.Name)
        ((exts.filterMap (fun e2 => mapLookup t.ExtendedSchemas e2)).flatMap
          (fun es => es.Columns))).map (fun l => cols ++ l) := by
  intro exts
  induction exts with
  | nil => intro cols; simp [Table.toSQLExts, resMapM, Res.map]
  | cons ext rest ih =>
    intro cols
    cases h : mapLookup t.ExtendedSchemas ext with
    | none => simp only [Table.toSQLExts, h, List.filterMap_cons, ih]
    | some es =>
      cases he : resMapM (fun c => Column.ToSQLSchema c t.Name) es.Columns with
      | ok le =>
        cases hrr : resMapM (fun c => Column.ToSQLSchema c t.Name)
            ((rest.filterMap (fun e2 => mapLookup t.ExtendedSchemas e2)).flatMap
              (fun es2 => es2.Columns)) with
        | ok lrr =>
          simp [Table.toSQLExts, h, List.filterMap_cons, List.flatMap_cons,
            toSQLCols_eq, resMapM_append, he, hrr, ih, Res.map]
        | err e =>
          simp [Table.toSQLExts, h, List.filterMap_cons, List.flatMap_cons,
            toSQLCols_eq, resMapM_append, he, hrr, ih, Res.map]
        | panicked m =>
          simp [Table.toSQLExts, h, List.filterMap_cons, List.flatMap_cons,
            toSQLCols_eq, resMapM_append, he, hrr, ih, Res.map]
        | fatal m =>
          simp [Table.toSQLExts, h, List.filterMap_cons, List.flatMap_cons,
            toSQLCols_eq, resMapM_append, he, hrr, ih, Res.map]
      | err e =>
        simp [Table.toSQLExts, h, List.filterMap_cons, List.flatMap_cons,
          toSQLCols_eq, resMapM_append, he, Res.map]
      | panicked m =>
        simp [Table.toSQLExts, h, List.filterMap_cons, List.flatMap_cons,
          toSQLCols_eq, resMapM_append, he, Res.map]
      | fatal m =>
        simp [Table.toSQLExts, h, List.filterMap_cons, List.flatMap_cons,
          toSQLCols_eq, resMapM_append, he, Res.map]

/-- Claim C5: for a table with a non-nil base schema, ToSQLSchema maps, in
order, the base schema columns in declared order followed by, for each
platform-filter entry in filter order that has a registered extended schema,
that schema columns in declared order; filter entries with no registered
extended schema contribute nothing (the first failing column mapping aborts
the run at its position). -/
theorem c5_tosql_order :
    ∀ (t : Table) (s : Schema) (filter : List String),
    t.Schema = some s →
    Table.ToSQLSchema t filter =
      resMapM (fun c => Column.ToSQLSchema c t.Name)
        (s.Columns ++
          (filter.filterMap (fun e2 => mapLookup t.ExtendedSchemas e2)).flatMap
            (fun es => es.Columns)) := by
  intro t s filter h
  cases hb : resMapM (fun c => Column.ToSQLSchema c t.Name) s.Columns with
  | ok lb =>
    cases hx : resMapM (fun c => Column.ToSQLSchema c t.Name)
        ((filter.filterMap (fun e2 => mapLookup t.ExtendedSchemas e2)).flatMap
          (fun es2 => es2.Columns)) with
    | ok lx =>
      simp [Table.ToSQLSchema, h, toSQLCols_eq, toSQLExts_eq, resMapM_append,
        hb, hx, Res.map]
    | err e =>
      simp [Table.ToSQLSchema, h, toSQLCols_eq, toSQLExts_eq, resMapM_append,
        hb, hx, Res.map]
    | panicked m =>
      simp [Table.ToSQLSchema, h, toSQLCols_eq, toSQLExts_eq, resMapM_append,
        hb, hx, Res.map]
    | fatal m =>
      simp [Table.ToSQLSchema, h, toSQLCols_eq, toSQLExts_eq, resMapM_append,
        hb, hx, Res.map]
  | err e =>
    simp [Table.ToSQLSchema, h, toSQLCols_eq, resMapM_append, hb, Res.map]
  | panicked m =>
    simp [Table.ToSQLSchema, h, toSQLCols_eq, resMapM_append, hb, Res.map]
  | fatal m =>
    simp [Table.ToSQLSchema, h, toSQLCols_eq, resMapM_append, hb, Res.map]

/-- Claim C5 (witness): the ToSQLSchema ordering statement applied to a
concrete table with a base schema, one registered extended schema and a
filter holding one registered and one unregistered platform. -/
theorem c5_tosql_order_witness :
    Table.ToSQLSchema c5Table ["windows", "darwin"] =
      resMapM (fun c => Column.ToSQLSchema c c5Table.Name)
        (c5Base.Columns ++
          ((["windows", "darwin"]).filterMap
            (fun e2 => mapLookup c5Table.ExtendedSchemas e2)).flatMap
            (fun es => es.Columns)) :=
  c5_tosql_order c5Table c5Base ["windows", "darwin"] rfl

lemma parseDirectory_clean_step :
    ∀ (g : WalkEntry) (loc : String) (l : List WalkEntry) (p : Parser),
    entryClean g = true →
    ∃ p1, ParseDirectory p loc (g :: l) = ParseDirectory p1 loc l := by
  intro g loc l p hg
  cases g with
  | failure e => simp [entryClean] at hg
  | file f =>
    by_cases he : eligible f = true
    · simp only [entryClean, he, Bool.not_true, Bool.false_or, Bool.and_eq_true] at hg
      obtain ⟨hok, hns⟩ := hg
      cases hpt : ParseTableDef f with
      | ok tbl =>
        cases hlk : mapLookup CanonicalPlatforms f.dir with
        | none => rw [hlk] at hns; simp at hns
        | some desc =>
          obtain ⟨p1, hrec⟩ : ∃ p1, recordTable p f tbl = .ok p1 := by
            simp only [recordTable, hlk]
            exact ⟨_, rfl⟩
          exact ⟨p1, by simp [ParseDirectory, he, hpt, hrec]⟩
      | err e2 => rw [hpt] at hok; simp [Res.isOk] at hok
      | panicked m => rw [hpt] at hok; simp [Res.isOk] at hok
      | fatal m => rw [hpt] at hok; simp [Res.isOk] at hok
    · exact ⟨p, by simp [ParseDirectory, he]⟩

/-- Claim C2 (counterexample): the claim says a malformed file with a bad
schema shape aborts the directory ingestion with an error returned to the
caller identifying the file path; but on a directory holding one good file
and one file whose schema argument is a Str instead of a List, ingestion
aborts through a visitor panic — no error value is returned, and the panic
message carries no file path. -/
theorem c2_counterexample :
    ParseDirectory NewParser "specs" [.file groupsFile, .file badSchemaShapeFile] =
      .panicked "argument 0 was not of type *arg.List (extended=false)" ∧
    (ParseDirectory NewParser "specs"
        [.file groupsFile, .file badSchemaShapeFile]).isErr = false :=
  ⟨by decide, by decide⟩

/-- Claim C2 (amended): after any prefix of clean walk events, a walk error
is returned to the caller as an error, a per-file python syntax error is
returned to the caller as an error (in both cases aborting the ingestion
with no partial-success mode), while a file whose extraction fails (such as
a bad schema shape) aborts the ingestion by panicking inside the visitor
instead of returning an error. -/
theorem c2_amended :
    ∀ (pre : List WalkEntry) (p : Parser) (loc : String) (rest : List WalkEntry)
      (f : SpecFile) (e m : String),
    (∀ g ∈ pre, entryClean g = true) →
    ((eligible f = true → f.src = Except.error e →
        ParseDirectory p loc (pre ++ .file f :: rest) = .err e) ∧
     (eligible f = true → ParseTableDef f = .panicked m →
        ParseDirectory p loc (pre ++ .file f :: rest) = .panicked m) ∧
     ParseDirectory p loc (pre ++ .failure e :: rest) = .err e) := by
  intro pre
  induction pre with
  | nil =>
    intro p loc rest f e m _
    refine ⟨?_, ?_, ?_⟩
    · intro hel hsrc
      have hpt : ParseTableDef f = .err e := by simp [ParseTableDef, hsrc]
      simp [ParseDirectory, hel, hpt]
    · intro hel hpan
      simp [ParseDirectory, hel, hpan]
    · simp [ParseDirectory]
  | cons g pre ih =>
    intro p loc rest f e m hclean
    have hg := hclean g (List.mem_cons_self g pre)
    have hrest : ∀ g2 ∈ pre, entryClean g2 = true :=
      fun g2 h2 => hclean g2 (List.mem_cons_of_mem g h2)
    obtain ⟨p1, hstep⟩ := parseDirectory_clean_step g loc (pre ++ .file f :: rest) p hg
    obtain ⟨p2, hstep2⟩ :=
      parseDirectory_clean_step g loc (pre ++ .failure e :: rest) p hg
    refine ⟨?_, ?_, ?_⟩
    · intro hel hsrc
      rw [List.cons_append, hstep]
      exact (ih p1 loc rest f e m hrest).1 hel hsrc
    · intro hel hpan
      rw [List.cons_append, hstep]
      exact (ih p1 loc rest f e m hrest).2.1 hel hpan
    · rw [List.cons_append, hstep2]
      exact (ih p2 loc rest f e m hrest).2.2

/-- Claim C2 (witness): the amended statement applied behind one clean file:
a syntax-error file and a walk failure are both returned as errors. -/
theorem c2_amended_witness :
    (∀ g ∈ [WalkEntry.file groupsFile], entryClean g = true) ∧
    ParseDirectory NewParser "specs"
      [.file groupsFile, .file syntaxErrFile] = .err "invalid syntax" ∧
    ParseDirectory NewParser "specs"
      [.file groupsFile, .failure "walk failed"] = .err "walk failed" := by
  refine ⟨by decide, ?_, ?_⟩
  · exact (c2_amended [.file groupsFile] NewParser "specs" [] syntaxErrFile
      "invalid syntax" "x" (by decide)).1 (by decide) rfl
  · exact (c2_amended [.file groupsFile] NewParser "specs" [] groupsFile
      "walk failed" "x" (by decide)).2.2


lemma mapInsert_not_mem {α : Type} : ∀ (m : List (String × α)) (k : String) (v : α),
    k ∉ m.map Prod.fst → mapInsert m k v = m ++ [(k, v)] := by
  intro m
  induction m with
  | nil => intro k v _; rfl
  | cons kv rest ih =>
    obtain ⟨k0, v0⟩ := kv
    intro k v hk
    simp only [List.map_cons, List.mem_cons] at hk
    push_neg at hk
    obtain ⟨h1, h2⟩ := hk
    have hne : ¬ (k0 = k) := fun h => h1 h.symm
    simp only [mapInsert, if_neg hne, List.cons_append]
    rw [ih _ _ h2]

lemma injectTables_eq : ∀ (raw : List (String × Namespace)) (p : Parser),
    (raw.map Prod.fst).Nodup →
    (∀ k ∈ raw.map Prod.fst, k ∉ p.Namespaces.map Prod.fst) →
    Parser.InjectTables p raw =
      { p with Namespaces :=
          p.Namespaces ++ raw.map (fun kv => (kv.1, injectNamespace kv.1 kv.2)) } := by
  intro raw
  induction raw with
  | nil => intro p _ _; simp [Parser.InjectTables]
  | cons kv rest ih =>
    intro p hnd hdisj
    obtain ⟨k, ns⟩ := kv
    simp only [List.map_cons, List.nodup_cons] at hnd
    obtain ⟨hknotin, hndrest⟩ := hnd
    have hkp : k ∉ p.Namespaces.map Prod.fst := hdisj k (by simp)
    have hdisj2 : ∀ k2 ∈ rest.map Prod.fst,
        k2 ∉ (p.Namespaces ++ [(k, injectNamespace k ns)]).map Prod.fst := by
      intro k2 hk2
      simp only [List.map_append, List.map_cons, List.map_nil, List.mem_append,
        List.mem_singleton]
      rintro (h | h)
      · exact hdisj k2 (by simp [hk2]) h
      · exact hknotin (h ▸ hk2)
    have step : Parser.InjectTables p ((k, ns) :: rest) =
        Parser.InjectTables
          { p with Namespaces := p.Namespaces ++ [(k, injectNamespace k ns)] } rest := by
      simp only [Parser.InjectTables, List.foldl_cons, mapInsert_not_mem _ _ _ hkp]
    rw [step, ih _ hndrest hdisj2]
    simp

lemma schema_roundtrip (s : Schema) (r : Option (String × String)) :
    Schema.toWire { WireSchema.rehydrate (Schema.toWire s) with TableRef := r } =
      Schema.toWire s := rfl

lemma table_roundtrip (nsid tname : String) (t : Table) :
    Table.toWire (injectTable nsid tname (WireTable.rehydrate (Table.toWire t))) =
      { Table.toWire t with
        NamespaceID := if t.NamespaceID = "" then nsid else t.NamespaceID } := by
  simp only [Table.toWire, WireTable.rehydrate, injectTable, List.map_map, Option.map_map]
  rfl

lemma table_roundtrip_exact (nsid tname : String) (t : Table)
    (h : ¬ t.NamespaceID = "") :
    Table.toWire (injectTable nsid tname (WireTable.rehydrate (Table.toWire t))) =
      Table.toWire t := by
  rw [table_roundtrip, if_neg h]
  rfl

lemma ns_roundtrip_visible (nsid : String) (ns : Namespace) :
    (Namespace.toWire (injectNamespace nsid
        (WireNamespace.rehydrate (Namespace.toWire ns)))).visible =
      (Namespace.toWire ns).visible := by
  simp only [Namespace.toWire, WireNamespace.rehydrate, injectNamespace,
    WireNamespace.visible, List.map_map]
  congr 1
  apply List.map_congr_left
  intro kv _
  cases kv with
  | mk key tbl =>
    simp only [Function.comp_apply]
    rw [table_roundtrip]
    rfl

lemma ns_roundtrip_exact (nsid : String) (ns : Namespace)
    (h : ns.Tables.all (fun tkv => tkv.2.NamespaceID != "") = true) :
    Namespace.toWire (injectNamespace nsid
        (WireNamespace.rehydrate (Namespace.toWire ns))) =
      Namespace.toWire ns := by
  simp only [Namespace.toWire, WireNamespace.rehydrate, injectNamespace, List.map_map]
  congr 1
  apply List.map_congr_left
  intro kv hkv
  have hne := List.all_eq_true.mp h kv hkv
  obtain ⟨key, tbl⟩ := kv
  simp only [bne_iff_ne, ne_eq] at hne
  simp only [Function.comp_apply]
  rw [table_roundtrip_exact _ _ _ hne]

lemma refsCorrectTable_inject (nsid tname : String) (t : Table) :
    refsCorrectTable nsid tname (injectTable nsid tname t) = true := by
  cases hs : t.Schema <;>
    simp [refsCorrectTable, injectTable, List.all_map, Function.comp, hs]

/-- Claim C4: exporting a namespace map to the wire format and re-importing
it through the schema-file parsers yields a model equal to the original in
all externally visible fields (the namespace_id field, absent from the wire
exactly when it was empty, is additionally preserved verbatim whenever it
was non-empty, as it is for every ingested map), and the back-references
absent from the wire format — namespace to parser, table to namespace,
schema to table — are correctly re-derived by InjectTables. -/
theorem c4_roundtrip :
    ∀ (m : List (String × Namespace)),
    (m.map Prod.fst).Nodup →
    visibleExport (Parser.ParseSchemaWire NewParser (exportNamespaces m)).Namespaces =
      visibleExport m ∧
    refsCorrect (Parser.ParseSchemaWire NewParser (exportNamespaces m)).Namespaces =
      true ∧
    (noEmptyNamespaceIDs m = true →
      exportNamespaces
          (Parser.ParseSchemaWire NewParser (exportNamespaces m)).Namespaces =
        exportNamespaces m) := by
  intro m hnd
  have hkeys : (((exportNamespaces m).map
      (fun kv => (kv.1, kv.2.rehydrate))).map Prod.fst) = m.map Prod.fst := by
    simp [exportNamespaces, List.map_map, Function.comp]
  have hns : (Parser.ParseSchemaWire NewParser (exportNamespaces m)).Namespaces =
      m.map (fun kv =>
        (kv.1, injectNamespace kv.1 (WireNamespace.rehydrate (Namespace.toWire kv.2)))) := by
    unfold Parser.ParseSchemaWire
    rw [injectTables_eq _ _ (by rw [hkeys]; exact hnd)
      (by intro k hk; simp [NewParser])]
    simp [NewParser, exportNamespaces, List.map_map, Function.comp]
  refine ⟨?_, ?_, ?_⟩
  · rw [hns]
    simp only [visibleExport, exportNamespaces, List.map_map]
    apply List.map_congr_left
    intro kv _
    obtain ⟨k, ns⟩ := kv
    simp only [Function.comp_apply]
    exact congrArg (fun w => (k, w)) (ns_roundtrip_visible k ns)
  · rw [hns]
    simp [refsCorrect, injectNamespace, WireNamespace.rehydrate, Namespace.toWire,
      List.all_map, List.map_map, Function.comp, refsCorrectTable_inject]
  · intro hne
    rw [hns]
    simp only [exportNamespaces, List.map_map]
    apply List.map_congr_left
    intro kv hkv
    obtain ⟨k, ns⟩ := kv
    have h2 : ns.Tables.all (fun tkv => tkv.2.NamespaceID != "") = true := by
      unfold noEmptyNamespaceIDs at hne
      exact List.all_eq_true.mp hne (k, ns) hkv
    simp only [Function.comp_apply]
    exact congrArg (fun w => (k, w)) (ns_roundtrip_exact k ns h2)

/-- Claim C4 (witness): the round-trip statement applied to a concrete
namespace map holding one table with a base schema, an extended schema,
attributes and foreign keys, its hypotheses discharged by evaluation. -/
theorem c4_roundtrip_witness :
    visibleExport (Parser.ParseSchemaWire NewParser (exportNamespaces rtMap)).Namespaces =
      visibleExport rtMap ∧
    refsCorrect (Parser.ParseSchemaWire NewParser (exportNamespaces rtMap)).Namespaces =
      true ∧
    exportNamespaces
        (Parser.ParseSchemaWire NewParser (exportNamespaces rtMap)).Namespaces =
      exportNamespaces rtMap := by
  obtain ⟨h1, h2, h3⟩ := c4_roundtrip rtMap (by decide)
  exact ⟨h1, h2, h3 (by decide)⟩
